import Mathlib

/-
Verification development for the solution provisioning orchestrator
(nodejs/src/services/solutionInstall.js and
nodejs/src/controller/web/solutionInstallProgressController.js).

The JavaScript source is shallowly embedded:
 - JS objects used as string maps become association lists (first-entry
   lookup, in-place update, append on fresh key), matching JS object
   key-insertion-order semantics;
 - the filesystem contents read by the merger become Option String inputs
   (none models a missing file);
 - each external shell command site becomes one Step tag with a success
   flag in an Exec record (the external world), and its effect on the
   tracked environment files is applied on success;
 - the SSE progress channel becomes the list of events written to it.
-/

namespace Weam

/-! ## Character-list string primitives

The JS string operations are modelled on the character list underlying a
Lean string, so that every definition reduces by plain structural
recursion (the core position-based string functions do not). -/

/-- Split on a separator character; JS String.split with a one-character
separator (the empty string splits to one empty piece, as in JS). -/
def splitChar (c : Char) : List Char → List (List Char)
  | [] => [[]]
  | x :: xs =>
      if x = c then [] :: splitChar c xs
      else
        match splitChar c xs with
        | [] => [[x]]
        | g :: gs => (x :: g) :: gs

def trimChars (l : List Char) : List Char :=
  ((l.dropWhile Char.isWhitespace).reverse.dropWhile Char.isWhitespace).reverse

/-- JS String.trim restricted to ASCII whitespace. -/
def jsTrim (s : String) : String := ⟨trimChars s.data⟩

def beginsWith : List Char → List Char → Bool
  | [], _ => true
  | _ :: _, [] => false
  | p :: ps, c :: cs => p = c && beginsWith ps cs

def occursIn (pat : List Char) : List Char → Bool
  | [] => pat.isEmpty
  | c :: cs => beginsWith pat (c :: cs) || occursIn pat cs

/-- JS String.startsWith. -/
def jsStartsWith (s pat : String) : Bool := beginsWith pat.data s.data

/-- JS String.includes: the empty pattern is always contained. -/
def jsIncludes (s pat : String) : Bool :=
  if pat.data.isEmpty then true else occursIn pat.data s.data

/-- JS String.split on a one-character separator, producing strings. -/
def jsSplit (c : Char) (s : String) : List String :=
  (splitChar c s.data).map (fun l => ⟨l⟩)

/-- JS Array.join with a newline, as String.intercalate. -/
def joinLines : List String → String
  | [] => ""
  | [x] => x
  | x :: xs => x ++ "\n" ++ joinLines xs

/-! ## JS object model: association lists with JS object semantics -/

abbrev Obj := List (String × String)

/-- First-entry lookup, as JS property read on a plain object. -/
def jsGet : Obj → String → Option String
  | [], _ => none
  | (k', v) :: rest, k => if k' = k then some v else jsGet rest k

/-- JS property write: update the entry in place if the key exists,
append otherwise (preserving key insertion order). -/
def objSet : Obj → String → String → Obj
  | [], k, v => [(k, v)]
  | (k', v') :: rest, k, v =>
      if k' = k then (k', v) :: rest else (k', v') :: objSet rest k v

def objKeys (o : Obj) : List String := o.map Prod.fst

/-! ## parseEnvFile (solutionInstall.js lines 44-62) -/

/-- Lines of an env file: split on newlines, trim, drop blank lines,
comment lines and lines without an equals sign.  Splitting on a plain
newline followed by trimming is equivalent to the source regex split
that also consumes a preceding carriage return, because trim removes it. -/
def envLines (content : String) : List String :=
  ((jsSplit '\n' content).map jsTrim).filter
    (fun l => !(l == "") && !(jsStartsWith l "#") && l.data.contains '=')

/-- Key/value of one line: key is everything before the first equals sign,
value everything after it, both trimmed (source lines 52-54). -/
def splitKV (line : String) : String × String :=
  (jsTrim ⟨line.data.takeWhile (fun c => !(c == '='))⟩,
   jsTrim ⟨(line.data.dropWhile (fun c => !(c == '='))).drop 1⟩)

def envPairs (content : String) : List (String × String) :=
  (envLines content).map splitKV

/-- Accumulator step of the source reduce (lines 56-60): write the value
when the key is new, or when the stored value is empty and the new value
is not. -/
def parseStep (acc : Obj) (kv : String × String) : Obj :=
  match jsGet acc kv.1 with
  | none => objSet acc kv.1 kv.2
  | some old => if old = "" && kv.2 != "" then objSet acc kv.1 kv.2 else acc

def parseEnvFile (content : String) : Obj :=
  (envPairs content).foldl parseStep []

/-- Missing file (existsSync false, line 45): empty mapping. -/
def parseEnvFileOpt : Option String → Obj
  | none => []
  | some c => parseEnvFile c

/-! ## mergeEnvironmentFiles (solutionInstall.js lines 42-102) -/

/-- JS expression localVal or rootVal or empty-string, with JS string
truthiness (empty string and undefined are falsy). -/
def jsOrStr (a : String) (b : Option String) : String :=
  if a ≠ "" then a
  else match b with
    | some rv => if rv ≠ "" then rv else ""
    | none => ""

/-- JS truthiness of a possibly undefined string with a trim check,
as in the conditions on source lines 75 and 79. -/
def truthyTrimmed : Option String → Bool
  | some rv => !(rv == "") && !(jsTrim rv == "")
  | none => false

/-- One iteration of the merge loop (source lines 70-86). -/
def mergeVarStep (rootVars : Obj) (merged : Obj) (kv : String × String) : Obj :=
  let key := kv.1
  let localVal := kv.2
  let rootVal := jsGet rootVars key
  if truthyTrimmed (some localVal) then
    objSet merged key localVal
  else if truthyTrimmed rootVal then
    objSet merged key (rootVal.getD "")
  else
    objSet merged key (jsOrStr localVal rootVal)

/-- Spread of rootVars followed by the loop over the local keys. -/
def mergeEnvVars (rootVars localVars : Obj) : Obj :=
  localVars.foldl (mergeVarStep rootVars) rootVars

/-- Serialization (source lines 89-91): KEY=VALUE lines joined by
newlines, in object entry order. -/
def serializeObj (o : Obj) : String :=
  joinLines (o.map fun p => p.1 ++ "=" ++ p.2)

/-- Whole merger: parse both inputs (a missing file parses as the empty
mapping), merge, and return the mapping together with the file content
written to the output path (temp write plus rename, net effect). -/
def mergeEnvironmentFiles (rootFile localFile : Option String) : Obj × String :=
  let merged := mergeEnvVars (parseEnvFileOpt rootFile) (parseEnvFileOpt localFile)
  (merged, serializeObj merged)

/-! ## detectRepoStructure (solutionInstall.js lines 144-172) -/

structure RepoStructure where
  hasDockerCompose : Bool
  hasDockerfile : Bool
  composeFile : Option String
deriving DecidableEq

/-- Fixed ordered candidate list from source line 153. -/
def composeFileNames : List String :=
  ["docker-compose.yml", "docker-compose.yaml", "compose.yml", "compose.yaml"]

/-- The source for-loop with break: first candidate present in the
repository root. -/
def findComposeFile : List String → List String → Option String
  | [], _ => none
  | f :: rest, files => if files.contains f then some f else findComposeFile rest files

def detectRepoStructure (files : List String) : RepoStructure :=
  match findComposeFile composeFileNames files with
  | some f =>
      { hasDockerCompose := true, composeFile := some f,
        hasDockerfile := files.contains "Dockerfile" }
  | none =>
      { hasDockerCompose := false, composeFile := none,
        hasDockerfile := files.contains "Dockerfile" }

/-! ## The external command layer

Each runCommand call site of solutionInstall.js becomes one Step tag.
An Exec record (one Bool per distinct command) plays the role of the
external world: the same shell command has one deterministic outcome, so
the two find-and-copy sites sharing one command string share one flag. -/

inductive Step
  | rmRepo
  | clone
  | dockerRmContainer
  | stopPort (p : String)
  | copyTemplate
  | copyTemplateFallback
  | mergeEnv
  | copyTempToEnv
  | build
  | run
  | composeVersionCheck
  | composeV2Check
  | installComposeTool (ok : Bool)
  | composeUp
  | rmTemp
deriving DecidableEq

inductive Err
  | missingSolutionType
  | unknownSolution (s : String)
  | unsupportedInstallType (t : String)
  | cmdFailed (st : Step)
  | noDockerConfig
deriving DecidableEq

/-- Success or failure of each external command (the host environment). -/
structure Exec where
  rmRepoOk : Bool
  cloneOk : Bool
  copyTemplateOk : Bool
  copyTempOk : Bool
  buildOk : Bool
  runOk : Bool
  rmTempOk : Bool
  composeV1Ok : Bool
  composeV2Ok : Bool
  toolInstallOk : Bool
  composeUpOk : Bool

/-- Contents of the cloned repository root: file name, file content. -/
structure Repo where
  files : List (String × String)

def repoGet (r : Repo) (name : String) : Option String := jsGet r.files name

def repoNames (r : Repo) : List String := r.files.map Prod.fst

/-- Mutable world tracked across an attempt: the root env file, the
repository .env and .env.temp files, and the trace of attempted
operations. -/
structure St where
  rootEnv : Option String
  dotEnv : Option String
  dotEnvTemp : Option String
  trace : List Step

def initSt (rootEnv : Option String) : St :=
  { rootEnv := rootEnv, dotEnv := none, dotEnvTemp := none, trace := [] }

abbrev StepRes := Except Err Unit × St

/-- Append an attempted operation to the trace. -/
def tr (s : St) (st : Step) : St := { s with trace := s.trace ++ [st] }

/-- One runCommand call (source lines 16-32): the attempt is recorded,
the effect applies on exit status zero, otherwise the promise rejects. -/
def runCmd (ok : Bool) (st : Step) (eff : St → St) (s : St) : StepRes :=
  if ok then (Except.ok (), eff (tr s st)) else (Except.error (Err.cmdFailed st), tr s st)

def andThen (r : StepRes) (k : St → StepRes) : StepRes :=
  match r with
  | (Except.ok _, s) => k s
  | (Except.error e, s) => (Except.error e, s)

/-- Effect of the find-and-copy command: copy the file called name to
.env beside it; no match leaves .env unchanged (find still exits zero). -/
def applyFindCopy (repo : Repo) (name : String) (s : St) : St :=
  { s with dotEnv := match repoGet repo name with
                     | some t => some t
                     | none => s.dotEnv }

/-- Effect of mergeEnvironmentFiles: the serialized merge of the root
env file and the current .env is written to .env.temp. -/
def applyMerge (s : St) : St :=
  { s with dotEnvTemp := some (mergeEnvironmentFiles s.rootEnv s.dotEnv).2 }

def applyCopyTemp (s : St) : St := { s with dotEnv := s.dotEnvTemp }

def applyRmTemp (s : St) : St := { s with dotEnvTemp := none }

/-- Cloning materializes the repository tree; .env and .env.temp now
hold whatever the repository ships at those names. -/
def applyClone (repo : Repo) (s : St) : St :=
  { s with dotEnv := repoGet repo ".env", dotEnvTemp := repoGet repo ".env.temp" }

/-- The merge call site (never fails on missing inputs, see
mergeEnvironmentFiles; filesystem write errors are out of model). -/
def mergeEnvOp (s : St) : StepRes :=
  (Except.ok (), applyMerge (tr s Step.mergeEnv))

/-- isDockerComposeAvailable plus the conditional installDockerCompose
(source lines 111-137, 275-278): the availability probes are attempted
in order, and a failed tool installation is swallowed by its own catch,
so this operation never fails the attempt. -/
def ensureComposeTool (e : Exec) (s : St) : St :=
  let s1 := tr s Step.composeVersionCheck
  if e.composeV1Ok then s1
  else
    let s2 := tr s1 Step.composeV2Check
    if e.composeV2Ok then s2
    else tr s2 (Step.installComposeTool e.toolInstallOk)

/-! ## Solution catalog (config/solutionconfig.js) -/

structure Config where
  repoUrl : String
  repoName : String
  imageName : String
  containerName : String
  port : String
  branchName : String
  installType : String
  envFile : String
  additionalPorts : Option (List String)

def aiDocEditorConfig : Config :=
  { repoUrl := "https://github.com/devweam-ai/ai-doc-editor.git"
    repoName := "ai-doc-editor"
    imageName := "ai-doc-editor-img"
    containerName := "ai-doc-editor-container"
    port := "3002"
    branchName := "main"
    installType := "docker-compose"
    envFile := "env.example"
    additionalPorts := none }

def aiRecruiterConfig : Config :=
  { repoUrl := "https://github.com/devweam-ai/foloup.git"
    repoName := "foloup"
    imageName := "foloup-img"
    containerName := "foloup-container"
    port := "4000"
    branchName := "main"
    installType := "docker-compose"
    envFile := ".env.example"
    additionalPorts := some [] }

def aiLandingPageConfig : Config :=
  { repoUrl := "https://github.com/devweam-ai/landing-page-content-generator.git"
    repoName := "landing-page-content-generator"
    imageName := "landing-page-content-generator-img"
    containerName := "landing-page-content-generator-container"
    port := "4001"
    branchName := "devops"
    installType := "docker-compose"
    envFile := "example.env"
    additionalPorts := some [] }

def seoContentGenConfig : Config :=
  { repoUrl := "https://github.com/devweam-ai/seo-content-gen.git"
    repoName := "seo-content-gen"
    imageName := "seo-content-gen-img"
    containerName := "seo-content-gen-container"
    port := "3001"
    branchName := "devops"
    installType := "docker-compose"
    envFile := ".env.example"
    additionalPorts := some ["3001", "9002", "3003"] }

def SOLUTION_CONFIGS : List (String × Config) :=
  [("ai-doc-editor", aiDocEditorConfig),
   ("ai-recruiter", aiRecruiterConfig),
   ("ai-landing-page-generator", aiLandingPageConfig),
   ("seo-content-gen", seoContentGenConfig)]

def lookupConfig (sid : String) : Option Config :=
  (SOLUTION_CONFIGS.find? (fun p => p.1 == sid)).map Prod.snd

/-! ## Container lifecycle (solutionInstall.js lines 179-298) -/

/-- cleanupExistingContainers (lines 179-197): every command carries an
or-true suffix and the whole body is wrapped in a catch, so cleanup can
never fail the attempt; the additional-port stops run only when the
config declares the field. -/
def cleanupExistingContainers (cfg : Config) (s : St) : St :=
  let s1 := tr s Step.dockerRmContainer
  match cfg.additionalPorts with
  | none => s1
  | some ps => { s1 with trace := s1.trace ++ ps.map Step.stopPort }

/-- installDockerService (lines 205-238): template to .env (when the
config names a template), merge to .env.temp, temp to .env, build, run,
restore the template to .env (same find-and-copy command), delete temp. -/
def installDockerService (e : Exec) (cfg : Config) (repo : Repo) (s : St) : StepRes :=
  andThen (if cfg.envFile ≠ "" then
             runCmd e.copyTemplateOk Step.copyTemplate (applyFindCopy repo cfg.envFile) s
           else (Except.ok (), s)) fun s1 =>
  andThen (mergeEnvOp s1) fun s2 =>
  andThen (runCmd e.copyTempOk Step.copyTempToEnv applyCopyTemp s2) fun s3 =>
  andThen (runCmd e.buildOk Step.build id s3) fun s4 =>
  andThen (runCmd e.runOk Step.run id s4) fun s5 =>
  andThen (runCmd e.copyTemplateOk Step.copyTemplate (applyFindCopy repo cfg.envFile) s5) fun s6 =>
  runCmd e.rmTempOk Step.rmTemp applyRmTemp s6

/-- installDockerComposeService (lines 246-298): template to .env (or
the .env.example fallback search), merge to .env.temp, then branch on
the detected structure: compose descriptor present means the compose
path runs (ensuring the tool first, failures of that swallowed), after
which the merged .env is kept and only .env.temp is deleted; otherwise a
Dockerfile falls back to the single-container path; otherwise throw. -/
def installDockerComposeService (e : Exec) (cfg : Config) (repo : Repo) (s : St) : StepRes :=
  andThen (if cfg.envFile ≠ "" then
             runCmd e.copyTemplateOk Step.copyTemplate (applyFindCopy repo cfg.envFile) s
           else
             runCmd e.copyTemplateOk Step.copyTemplateFallback (applyFindCopy repo ".env.example") s) fun s1 =>
  andThen (mergeEnvOp s1) fun s2 =>
  if (detectRepoStructure (repoNames repo)).hasDockerCompose then
    let s3 := ensureComposeTool e s2
    andThen (runCmd e.copyTempOk Step.copyTempToEnv applyCopyTemp s3) fun s4 =>
    andThen (runCmd e.composeUpOk Step.composeUp id s4) fun s5 =>
    runCmd e.rmTempOk Step.rmTemp applyRmTemp s5
  else if (detectRepoStructure (repoNames repo)).hasDockerfile then
    installDockerService e cfg repo s2
  else
    (Except.error Err.noDockerConfig, s2)

/-! ## Orchestrator (solutionInstall.js lines 304-350) -/

def installWithProgress (solutionType : String) (e : Exec) (repo : Repo) (s : St) :
    Except Err String × St :=
  if solutionType = "" then (Except.error Err.missingSolutionType, s)
  else
    match lookupConfig solutionType with
    | none => (Except.error (Err.unknownSolution solutionType), s)
    | some cfg =>
      match andThen (runCmd e.rmRepoOk Step.rmRepo id s) (fun s1 =>
            andThen (runCmd e.cloneOk Step.clone (applyClone repo) s1) (fun s2 =>
              let s3 := cleanupExistingContainers cfg s2
              if cfg.installType = "docker" then installDockerService e cfg repo s3
              else if cfg.installType = "docker-compose" then
                installDockerComposeService e cfg repo s3
              else (Except.error (Err.unsupportedInstallType cfg.installType), s3))) with
      | (Except.ok _, sF) => (Except.ok cfg.port, sF)
      | (Except.error err, sF) => (Except.error err, sF)

/-! ## Progress streaming gateway
(solutionInstallProgressController.js lines 10-56) -/

inductive SSEEvent
  | connected
  | stateChange (s : String)
  | succeededEv (m : String)
  | errorEv (m : String)
deriving DecidableEq

/-- Messages of the thrown errors, as written to the error event.  The
command text interpolated into a command-failure message is abstracted. -/
def errMessage : Err → String
  | Err.missingSolutionType => "Solution type is required"
  | Err.unknownSolution s => "Unknown solution type: " ++ s
  | Err.unsupportedInstallType t => "Unsupported installation type: " ++ t
  | Err.cmdFailed _ => "Command failed"
  | Err.noDockerConfig => "No Docker configuration found in repository"

/-- The SSE controller: a connected event first; an empty solution type
gets an immediate error event and the channel ends; otherwise the
service runs, its success only closes the channel, and a thrown error
produces one error event before the close.  Returns the events written
in order, and the trace of attempted installation operations. -/
def getInstallationProgress (query : Option String) (e : Exec) (repo : Repo)
    (rootEnv : Option String) : List SSEEvent × List Step :=
  let solutionType := query.getD ""
  if solutionType = "" then
    ([SSEEvent.connected, SSEEvent.errorEv "Solution type is required"], [])
  else
    match installWithProgress solutionType e repo (initSt rootEnv) with
    | (Except.ok _, sF) => ([SSEEvent.connected], sF.trace)
    | (Except.error err, sF) => ([SSEEvent.connected, SSEEvent.errorEv (errMessage err)], sF.trace)

/-! ## Health probe
(solutionInstallProgressController.js lines 58-105) -/

inductive HealthStatus
  | installing (m : String)
  | running (container : String)
  | notRunning (m : String)
  | errorStatus (m : String)
deriving DecidableEq

/-- Non-blank lines of the docker ps output (line 87). -/
def containerLines (stdout : String) : List String :=
  (jsSplit '\n' (jsTrim stdout)).filter (fun l => jsTrim l != "")

/-- The name test of lines 88-92: name is the first space-separated
token, status the second; the name must contain the queried solution
type or one of three fixed aliases, and the status token must contain
Up. -/
def lineMatches (sid : String) (line : String) : Bool :=
  let parts := (jsSplit ' ' line).take 2
  let name := parts.getD 0 ""
  let status := parts.getD 1 ""
  (jsIncludes name sid || jsIncludes name "foloup" || jsIncludes name "ai-doc"
    || jsIncludes name "landing-page") && jsIncludes status "Up"

/-- checkInstallationHealth: installing while a build or compose process
is active (psAux output non-blank), otherwise scan docker ps output for
the first matching Up container. -/
def checkInstallationHealth (solutionType psAux : String) (dockerPs : Option String) :
    HealthStatus :=
  if solutionType = "" then HealthStatus.errorStatus "Solution type is required"
  else if jsTrim psAux ≠ "" then HealthStatus.installing "Installation in progress"
  else match dockerPs with
    | none => HealthStatus.notRunning "Docker not available"
    | some out =>
      match (containerLines out).find? (fun l => lineMatches solutionType l) with
      | some l => HealthStatus.running l
      | none => HealthStatus.notRunning "Container not found or not running"

/-! ## Concrete worlds used by witnesses and counterexamples -/

def allOk : Exec :=
  { rmRepoOk := true, cloneOk := true, copyTemplateOk := true, copyTempOk := true,
    buildOk := true, runOk := true, rmTempOk := true, composeV1Ok := true,
    composeV2Ok := true, toolInstallOk := true, composeUpOk := true }

/-- A host with no working composition tool: both availability probes
fail, the one-shot installation of the tool fails, and the compose
command then fails as well. -/
def noComposeTool : Exec :=
  { allOk with composeV1Ok := false, composeV2Ok := false,
               toolInstallOk := false, composeUpOk := false }

/-- A host on which the clone command exits non-zero. -/
def cloneFails : Exec := { allOk with cloneOk := false }

/-- Repository shipping a compose descriptor, a Dockerfile and the
ai-doc-editor template. -/
def demoComposeRepo : Repo :=
  ⟨[("docker-compose.yml", "services:"), ("Dockerfile", "FROM node"),
    ("env.example", "K=1")]⟩

/-- Repository shipping only a Dockerfile and the template. -/
def demoDockerfileRepo : Repo :=
  ⟨[("Dockerfile", "FROM node"), ("env.example", "K=1")]⟩

def demoSt : St := initSt (some "A=1")

/-! ## Specification-side definitions used to state the claims -/

/-- A mapping whose values carry no outer whitespace, as every mapping
produced by parseEnvFile does (parsed values are trimmed). -/
def trimmedObj (o : Obj) : Prop := ∀ p ∈ o, jsTrim p.2 = p.2

/-- Values appearing for one key, in line order. -/
def valuesFor (k : String) (ps : List (String × String)) : List String :=
  (ps.filter (fun p => p.1 == k)).map Prod.snd

/-- Duplicate-key resolution applied to one further value. -/
def dupStep (cur : Option String) (v : String) : Option String :=
  match cur with
  | none => some v
  | some old => if old = "" && v != "" then some v else some old

def accDup (cur : Option String) : List String → Option String
  | [] => cur
  | v :: rest => accDup (dupStep cur v) rest

/-- First non-empty value of the list, or the empty string when the key
occurs but every occurrence is empty. -/
def firstEnvValue (vs : List String) : Option String :=
  match vs with
  | [] => none
  | _ :: _ =>
      match vs.find? (fun v => v != "") with
      | some v => some v
      | none => some ""

end Weam

namespace Weam

/-! ## Association-list lemmas -/

theorem jsGet_objSet_self (o : Obj) (k v : String) : jsGet (objSet o k v) k = some v := by
  induction o with
  | nil => simp [objSet, jsGet]
  | cons p rest ih =>
      obtain ⟨k', v'⟩ := p
      by_cases h : k' = k <;> simp [objSet, jsGet, h, ih]

theorem jsGet_objSet_ne (o : Obj) (k v k' : String) (h : k' ≠ k) :
    jsGet (objSet o k v) k' = jsGet o k' := by
  have hne : ¬(k = k') := fun hh => h hh.symm
  induction o with
  | nil => simp [objSet, jsGet, hne]
  | cons p rest ih =>
      obtain ⟨k₁, v₁⟩ := p
      by_cases h1 : k₁ = k
      · subst h1
        simp [objSet, jsGet, hne]
      · simp [objSet, jsGet, h1, ih]

theorem jsGet_mem (o : Obj) (k v : String) (h : jsGet o k = some v) : (k, v) ∈ o := by
  induction o with
  | nil => simp [jsGet] at h
  | cons p rest ih =>
      obtain ⟨k', v'⟩ := p
      by_cases h1 : k' = k
      · subst h1
        simp [jsGet] at h
        simp [h]
      · simp [jsGet, h1] at h
        exact List.mem_cons_of_mem _ (ih h)

theorem jsGet_some_key (o : Obj) (k v : String) (h : jsGet o k = some v) :
    k ∈ objKeys o := by
  have := jsGet_mem o k v h
  exact List.mem_map.mpr ⟨(k, v), this, rfl⟩

theorem objKeys_objSet (o : Obj) (k v : String) :
    objKeys (objSet o k v) = if k ∈ objKeys o then objKeys o else objKeys o ++ [k] := by
  induction o with
  | nil => simp [objSet, objKeys]
  | cons p rest ih =>
      obtain ⟨k', v'⟩ := p
      by_cases h : k' = k
      · subst h
        simp [objSet, objKeys]
      · have hne : ¬(k = k') := fun hh => h hh.symm
        have ih' : List.map Prod.fst (objSet rest k v) =
            if k ∈ List.map Prod.fst rest then List.map Prod.fst rest
            else List.map Prod.fst rest ++ [k] := ih
        simp only [objSet, if_neg h, objKeys, List.map_cons, ih']
        by_cases hmem : k ∈ List.map Prod.fst rest
        · simp [hmem]
        · simp [hmem, hne]

theorem nodup_objSet (o : Obj) (k v : String) (h : (objKeys o).Nodup) :
    (objKeys (objSet o k v)).Nodup := by
  rw [objKeys_objSet]
  split
  · exact h
  · next hnot =>
      simp [List.nodup_append, h, hnot]

/-! ## parseEnvFile lemmas (claim C8 support) -/

theorem parseStep_get_ne (acc : Obj) (p : String × String) (k : String) (h : p.1 ≠ k) :
    jsGet (parseStep acc p) k = jsGet acc k := by
  unfold parseStep
  split
  · exact jsGet_objSet_ne _ _ _ _ (fun hh => h hh.symm)
  · split
    · exact jsGet_objSet_ne _ _ _ _ (fun hh => h hh.symm)
    · rfl

theorem parseStep_get_self (acc : Obj) (k v : String) :
    jsGet (parseStep acc (k, v)) k = dupStep (jsGet acc k) v := by
  unfold parseStep dupStep
  cases h : jsGet acc k with
  | none => simp [jsGet_objSet_self]
  | some old =>
      by_cases h1 : old = "" && v != ""
      · simp [h1, jsGet_objSet_self]
      · simp [h1, h]

theorem parse_foldl_get (ps : List (String × String)) :
    ∀ (acc : Obj) (k : String),
      jsGet (ps.foldl parseStep acc) k = accDup (jsGet acc k) (valuesFor k ps) := by
  induction ps with
  | nil => intro acc k; simp [valuesFor, accDup]
  | cons p rest ih =>
      intro acc k
      obtain ⟨k0, v0⟩ := p
      rw [List.foldl_cons, ih]
      by_cases h : k0 = k
      · subst h
        have hv : valuesFor k0 ((k0, v0) :: rest) = v0 :: valuesFor k0 rest := by
          simp [valuesFor]
        rw [hv, parseStep_get_self]
        rfl
      · have hv : valuesFor k ((k0, v0) :: rest) = valuesFor k rest := by
          simp [valuesFor, h]
        rw [hv, parseStep_get_ne _ _ _ h]

theorem accDup_some_nonempty (v : String) (h : v ≠ "") :
    ∀ vs, accDup (some v) vs = some v := by
  intro vs
  induction vs with
  | nil => rfl
  | cons w rest ih =>
      have : dupStep (some v) w = some v := by simp [dupStep, h]
      simp [accDup, this, ih]

theorem accDup_some_empty :
    ∀ vs, accDup (some "") vs =
      match vs.find? (fun v => v != "") with
      | some w => some w
      | none => some "" := by
  intro vs
  induction vs with
  | nil => rfl
  | cons w rest ih =>
      by_cases h : w = ""
      · subst h
        have hd : dupStep (some "") "" = some "" := rfl
        have hf : (("" :: rest).find? (fun v => v != "")) = rest.find? (fun v => v != "") :=
          List.find?_cons_of_neg _ (by simp)
        simp only [accDup, hd, ih, hf]
      · have hd : dupStep (some "") w = some w := by simp [dupStep, h]
        have hf : ((w :: rest).find? (fun v => v != "")) = some w :=
          List.find?_cons_of_pos _ (by simp [h])
        simp only [accDup, hd, hf, accDup_some_nonempty w h]

theorem accDup_none_eq_firstEnvValue (vs : List String) :
    accDup none vs = firstEnvValue vs := by
  cases vs with
  | nil => rfl
  | cons v rest =>
      by_cases h : v = ""
      · subst h
        have hd : dupStep none "" = some "" := rfl
        have hf : (("" :: rest).find? (fun w => w != "")) = rest.find? (fun w => w != "") :=
          List.find?_cons_of_neg _ (by simp)
        simp only [accDup, hd, accDup_some_empty, firstEnvValue, hf]
      · have hd : dupStep none v = some v := rfl
        have hf : ((v :: rest).find? (fun w => w != "")) = some v :=
          List.find?_cons_of_pos _ (by simp [h])
        simp only [accDup, hd, accDup_some_nonempty v h, firstEnvValue, hf]

/-! ## Nodup preservation through parsing -/

theorem nodup_parseStep (acc : Obj) (p : String × String) (h : (objKeys acc).Nodup) :
    (objKeys (parseStep acc p)).Nodup := by
  unfold parseStep
  split
  · exact nodup_objSet _ _ _ h
  · split
    · exact nodup_objSet _ _ _ h
    · exact h

theorem nodup_foldl_parseStep (ps : List (String × String)) :
    ∀ acc : Obj, (objKeys acc).Nodup → (objKeys (ps.foldl parseStep acc)).Nodup := by
  induction ps with
  | nil => intro acc h; exact h
  | cons p rest ih =>
      intro acc h
      rw [List.foldl_cons]
      exact ih _ (nodup_parseStep acc p h)

theorem parseEnvFile_nodup (c : String) : (objKeys (parseEnvFile c)).Nodup :=
  nodup_foldl_parseStep (envPairs c) [] (by simp [objKeys])

/-! ## The merge loop, pointwise -/

theorem objKeys_nil : objKeys [] = [] := rfl

theorem objKeys_cons (p : String × String) (o : Obj) :
    objKeys (p :: o) = p.1 :: objKeys o := rfl

theorem objKeys_append (o₁ o₂ : Obj) :
    objKeys (o₁ ++ o₂) = objKeys o₁ ++ objKeys o₂ := by
  simp [objKeys]

theorem jsGet_mergeVarStep_ne (root acc : Obj) (p : String × String) (k : String)
    (h : p.1 ≠ k) : jsGet (mergeVarStep root acc p) k = jsGet acc k := by
  obtain ⟨k0, v0⟩ := p
  unfold mergeVarStep
  dsimp only
  split
  · exact jsGet_objSet_ne _ _ _ _ (fun hh => h hh.symm)
  · split
    · exact jsGet_objSet_ne _ _ _ _ (fun hh => h hh.symm)
    · exact jsGet_objSet_ne _ _ _ _ (fun hh => h hh.symm)

theorem jsGet_mergeVarStep_self (root acc : Obj) (k0 v0 : String)
    (hroot : trimmedObj root) (hv0 : jsTrim v0 = v0) :
    jsGet (mergeVarStep root acc (k0, v0)) k0 =
      some (if v0 ≠ "" then v0 else (jsGet root k0).getD "") := by
  unfold mergeVarStep
  by_cases hv : v0 = ""
  · subst hv
    have hcond : truthyTrimmed (some "") = false := by simp [truthyTrimmed]
    simp only [hcond, Bool.false_eq_true, if_false, if_neg (by simp : ¬("" : String) ≠ "")]
    cases hr : jsGet root k0 with
    | none =>
        have : truthyTrimmed (none : Option String) = false := rfl
        simp [hr, this, jsGet_objSet_self, jsOrStr]
    | some rv =>
        have hrtrim : jsTrim rv = rv := hroot (k0, rv) (jsGet_mem _ _ _ hr)
        by_cases hrv : rv = ""
        · subst hrv
          have : truthyTrimmed (some ("" : String)) = false := by simp [truthyTrimmed]
          simp [hr, this, jsGet_objSet_self, jsOrStr]
        · have : truthyTrimmed (some rv) = true := by simp [truthyTrimmed, hrv, hrtrim]
          simp [hr, this, jsGet_objSet_self]
  · have hcond : truthyTrimmed (some v0) = true := by simp [truthyTrimmed, hv, hv0]
    simp [hcond, jsGet_objSet_self, hv]

theorem mergeFold_get (root : Obj) (hroot : trimmedObj root) (locals : Obj) :
    ∀ (acc : Obj) (k : String), trimmedObj locals → (objKeys locals).Nodup →
      jsGet (locals.foldl (mergeVarStep root) acc) k =
        (match jsGet locals k with
         | some lv => some (if lv ≠ "" then lv else (jsGet root k).getD "")
         | none => jsGet acc k) := by
  induction locals with
  | nil => intro acc k _ _; simp [jsGet]
  | cons p rest ih =>
      intro acc k htr hnd
      obtain ⟨k0, v0⟩ := p
      have htr0 : jsTrim v0 = v0 := htr (k0, v0) (List.mem_cons_self _ _)
      have htrrest : trimmedObj rest := fun q hq => htr q (List.mem_cons_of_mem _ hq)
      have hk0 : k0 ∉ objKeys rest := by
        have : (k0 :: objKeys rest).Nodup := hnd
        exact (List.nodup_cons.mp this).1
      have hndrest : (objKeys rest).Nodup := by
        have : (k0 :: objKeys rest).Nodup := hnd
        exact (List.nodup_cons.mp this).2
      rw [List.foldl_cons, ih _ k htrrest hndrest]
      by_cases hk : k0 = k
      · subst hk
        have hrnone : jsGet rest k0 = none := by
          cases hget : jsGet rest k0 with
          | none => rfl
          | some v => exact absurd (jsGet_some_key _ _ _ hget) hk0
        rw [hrnone]
        have hself : jsGet ((k0, v0) :: rest) k0 = some v0 := by simp [jsGet]
        rw [hself, jsGet_mergeVarStep_self root acc k0 v0 hroot htr0]
      · have hne : jsGet ((k0, v0) :: rest) k = jsGet rest k := by simp [jsGet, hk]
        rw [hne, jsGet_mergeVarStep_ne root acc (k0, v0) k hk]

/-! ## Merging against an empty root mapping -/

theorem objSet_append_of_not_mem (o : Obj) (k v : String) (h : k ∉ objKeys o) :
    objSet o k v = o ++ [(k, v)] := by
  induction o with
  | nil => rfl
  | cons p rest ih =>
      obtain ⟨k', v'⟩ := p
      rw [objKeys_cons] at h
      have hk : ¬(k' = k) := fun hh => h (by rw [hh]; exact List.mem_cons_self _ _)
      have hrest : k ∉ objKeys rest := fun hh => h (List.mem_cons_of_mem _ hh)
      simp [objSet, hk, ih hrest]

theorem mergeVarStep_nil_root (acc : Obj) (p : String × String) :
    mergeVarStep [] acc p = objSet acc p.1 p.2 := by
  obtain ⟨k, v⟩ := p
  unfold mergeVarStep
  have hroot : jsGet [] k = none := rfl
  by_cases hv : truthyTrimmed (some v) = true
  · simp [hv]
  · have : truthyTrimmed (none : Option String) = false := rfl
    simp only [hroot, hv, this, Bool.false_eq_true, if_false]
    by_cases hve : v = ""
    · subst hve
      simp [jsOrStr]
    · simp [jsOrStr, hve]

theorem foldl_mergeVarStep_nil (o : Obj) :
    ∀ acc : Obj, (objKeys o).Nodup → (∀ k ∈ objKeys o, k ∉ objKeys acc) →
      o.foldl (mergeVarStep []) acc = acc ++ o := by
  induction o with
  | nil => intro acc _ _; simp
  | cons p rest ih =>
      intro acc hnd hdisj
      obtain ⟨k0, v0⟩ := p
      have hk0acc : k0 ∉ objKeys acc :=
        hdisj k0 (by rw [objKeys_cons]; exact List.mem_cons_self _ _)
      have hk0rest : k0 ∉ objKeys rest := by
        have : (k0 :: objKeys rest).Nodup := hnd
        exact (List.nodup_cons.mp this).1
      have hndrest : (objKeys rest).Nodup := by
        have : (k0 :: objKeys rest).Nodup := hnd
        exact (List.nodup_cons.mp this).2
      rw [List.foldl_cons, mergeVarStep_nil_root, objSet_append_of_not_mem _ _ _ hk0acc]
      have hdisj' : ∀ k ∈ objKeys rest, k ∉ objKeys (acc ++ [(k0, v0)]) := by
        intro k hk
        have h1 : k ∉ objKeys acc :=
          hdisj k (by rw [objKeys_cons]; exact List.mem_cons_of_mem _ hk)
        have h2 : k ≠ k0 := fun hh => hk0rest (hh ▸ hk)
        rw [objKeys_append, objKeys_cons, objKeys_nil]
        intro hmem
        rcases List.mem_append.mp hmem with hmem | hmem
        · exact h1 hmem
        · rcases List.mem_singleton.mp hmem with rfl
          exact h2 rfl
      rw [ih (acc ++ [(k0, v0)]) hndrest hdisj']
      simp

theorem mergeEnvVars_nil_root (o : Obj) (hnd : (objKeys o).Nodup) :
    mergeEnvVars [] o = o := by
  unfold mergeEnvVars
  rw [foldl_mergeVarStep_nil o [] hnd (by simp [objKeys])]
  simp

/-! ## Claim theorems -/

/-- Claim C1: for every pair of parsed environment mappings, the merged
mapping gives each key present in the local mapping its local value when
that is non-empty, the root value when the local value is empty and the
root value is non-empty, and the empty string when both are empty or the
root entry is absent; keys present only in the root mapping keep the
root value, keys absent from both are absent.  In particular merging
root A=1, B-empty with local B=2, C-empty yields exactly A=1, B=2,
C-empty. -/
theorem mergeEnvironmentFiles_precedence (root locals : Obj)
    (hroot : trimmedObj root) (hloc : trimmedObj locals)
    (hnd : (objKeys locals).Nodup) (k : String) :
    (jsGet (mergeEnvVars root locals) k =
      (match jsGet locals k with
       | some lv => some (if lv ≠ "" then lv else (jsGet root k).getD "")
       | none => jsGet root k))
    ∧ mergeEnvVars [("A", "1"), ("B", "")] [("B", "2"), ("C", "")]
        = [("A", "1"), ("B", "2"), ("C", "")] := by
  constructor
  · exact mergeFold_get root hroot locals root k hloc hnd
  · decide

/-- Witness for C1 at the scenario from the specification, key B. -/
theorem mergeEnvironmentFiles_precedence_witness :
    (jsGet (mergeEnvVars [("A", "1"), ("B", "")] [("B", "2"), ("C", "")]) "B" =
      (match jsGet [("B", "2"), ("C", "")] "B" with
       | some lv => some (if lv ≠ "" then lv else (jsGet [("A", "1"), ("B", "")] "B").getD "")
       | none => jsGet [("A", "1"), ("B", "")] "B"))
    ∧ mergeEnvVars [("A", "1"), ("B", "")] [("B", "2"), ("C", "")]
        = [("A", "1"), ("B", "2"), ("C", "")] :=
  mergeEnvironmentFiles_precedence [("A", "1"), ("B", "")] [("B", "2"), ("C", "")]
    (by unfold trimmedObj; decide) (by unfold trimmedObj; decide) (by decide) "B"

/-- Claim C8: parsing a single environment file resolves a repeated key
to the first non-empty value among its occurrences; if every occurrence
is empty the key maps to the empty string; a later value never replaces
an earlier non-empty one. -/
theorem parseEnvFile_duplicate_keys (content : String) (k : String) :
    jsGet (parseEnvFile content) k = firstEnvValue (valuesFor k (envPairs content)) := by
  unfold parseEnvFile
  rw [parse_foldl_get (envPairs content) [] k]
  exact accDup_none_eq_firstEnvValue _

/-- Claim C9: the merge never fails because an input file is missing: a
missing file parses as the empty mapping, and merging a missing file
with a present one still produces the other file's mapping together
with the serialized output that is written; two missing files produce
the empty mapping and empty output. -/
theorem mergeEnvironmentFiles_missing_file (c : String) :
    parseEnvFileOpt none = []
    ∧ mergeEnvironmentFiles none (some c) = (parseEnvFile c, serializeObj (parseEnvFile c))
    ∧ mergeEnvironmentFiles (some c) none = (parseEnvFile c, serializeObj (parseEnvFile c))
    ∧ mergeEnvironmentFiles none none = ([], "") := by
  refine ⟨rfl, ?_, rfl, rfl⟩
  unfold mergeEnvironmentFiles parseEnvFileOpt
  rw [mergeEnvVars_nil_root (parseEnvFile c) (parseEnvFile_nodup c)]

/-- The source for-loop over the candidate compose descriptor names is
first-match search over that list. -/
theorem findComposeFile_eq_find (names files : List String) :
    findComposeFile names files = names.find? (fun f => files.contains f) := by
  induction names with
  | nil => rfl
  | cons f rest ih =>
      cases h : files.contains f with
      | true =>
          rw [List.find?_cons_of_pos _ h]
          show (if files.contains f = true then some f else findComposeFile rest files)
              = some f
          rw [if_pos h]
      | false =>
          rw [List.find?_cons_of_neg _ (by simp only [h]; decide)]
          show (if files.contains f = true then some f else findComposeFile rest files)
              = rest.find? (fun f => files.contains f)
          rw [if_neg (by simp only [h]; decide), ih]

/-- Claim C5: when the clone command exits non-zero, the attempt
terminates with the clone command failure as its error, and the
environment merge is never invoked in that attempt. -/
theorem cloneFailure_terminal (sid : String) (e : Exec) (repo : Repo) (s : St)
    (cfg : Config) (hs : sid ≠ "") (hcfg : lookupConfig sid = some cfg)
    (hrm : e.rmRepoOk = true) (hcl : e.cloneOk = false) (htr : s.trace = []) :
    (installWithProgress sid e repo s).1 = Except.error (Err.cmdFailed Step.clone)
    ∧ Step.mergeEnv ∉ (installWithProgress sid e repo s).2.trace := by
  simp [installWithProgress, hs, hcfg, runCmd, andThen, tr, hrm, hcl, htr]

/-- Witness for C5: the real ai-doc-editor entry on a host whose clone
command fails. -/
theorem cloneFailure_terminal_witness :
    (installWithProgress "ai-doc-editor" cloneFails demoComposeRepo (initSt none)).1
        = Except.error (Err.cmdFailed Step.clone)
    ∧ Step.mergeEnv ∉
        (installWithProgress "ai-doc-editor" cloneFails demoComposeRepo (initSt none)).2.trace :=
  cloneFailure_terminal "ai-doc-editor" cloneFails demoComposeRepo (initSt none)
    aiDocEditorConfig (by decide) rfl rfl rfl rfl

/-- Claim C4: a request whose solution identifier is absent, empty, or
not a key of the catalog produces the connected event followed by
exactly one error event, the channel is closed, and no installation
operation is attempted (the trace is empty). -/
theorem unknownSolution_no_side_effects (q : Option String) (e : Exec) (repo : Repo)
    (rootEnv : Option String) (h : lookupConfig (q.getD "") = none) :
    getInstallationProgress q e repo rootEnv
      = ([SSEEvent.connected,
          SSEEvent.errorEv (if q.getD "" = "" then "Solution type is required"
                            else errMessage (Err.unknownSolution (q.getD "")))], []) := by
  by_cases hq : q.getD "" = ""
  · simp [getInstallationProgress, hq]
  · simp [getInstallationProgress, installWithProgress, hq, h, initSt]

/-- Witness for C4 at an identifier outside the catalog. -/
theorem unknownSolution_no_side_effects_witness :
    getInstallationProgress (some "nosuch") allOk demoComposeRepo none
      = ([SSEEvent.connected,
          SSEEvent.errorEv (if (some "nosuch").getD "" = "" then "Solution type is required"
                            else errMessage (Err.unknownSolution ((some "nosuch").getD "")))], []) :=
  unknownSolution_no_side_effects (some "nosuch") allOk demoComposeRepo none rfl

/-- Counterexample to claim C3: a successful installation attempt (the
real ai-doc-editor entry, a compose repository, every command
succeeding) closes the channel right after the connected event: no
state-transition events are forwarded and no terminal succeeded event
is emitted, contradicting the claimed exactly-one final succeeded
event. -/
theorem progressStream_counterexample :
    (installWithProgress "ai-doc-editor" allOk demoComposeRepo (initSt (some "A=1"))).1
        = Except.ok "3002"
    ∧ (getInstallationProgress (some "ai-doc-editor") allOk demoComposeRepo (some "A=1")).1
        = [SSEEvent.connected] :=
  ⟨rfl, by decide⟩

/-- Claim C3 (amended): the channel carries the connected event first
and no state-transition events at all; when the attempt fails the
channel carries exactly one final error event with the failure message
before closing; when the attempt succeeds the channel is closed after
the connected event with no terminal event. -/
theorem progressStream_amended (q : Option String) (e : Exec) (repo : Repo)
    (rootEnv : Option String) :
    (q.getD "" = "" →
      getInstallationProgress q e repo rootEnv
        = ([SSEEvent.connected, SSEEvent.errorEv "Solution type is required"], []))
    ∧ (∀ p sF, q.getD "" ≠ "" →
        installWithProgress (q.getD "") e repo (initSt rootEnv) = (Except.ok p, sF) →
        (getInstallationProgress q e repo rootEnv).1 = [SSEEvent.connected])
    ∧ (∀ err sF, q.getD "" ≠ "" →
        installWithProgress (q.getD "") e repo (initSt rootEnv) = (Except.error err, sF) →
        (getInstallationProgress q e repo rootEnv).1
          = [SSEEvent.connected, SSEEvent.errorEv (errMessage err)]) := by
  refine ⟨fun hq => by simp [getInstallationProgress, hq], ?_, ?_⟩
  · intro p sF hq hinst
    simp [getInstallationProgress, hq, hinst]
  · intro err sF hq hinst
    simp [getInstallationProgress, hq, hinst]

/-- Witness for C3 (amended) covering the empty query, a successful
attempt and a failing attempt. -/
theorem progressStream_amended_witness :
    getInstallationProgress (some "") allOk demoComposeRepo none
      = ([SSEEvent.connected, SSEEvent.errorEv "Solution type is required"], [])
    ∧ (getInstallationProgress (some "ai-doc-editor") allOk demoComposeRepo (some "A=1")).1
        = [SSEEvent.connected]
    ∧ (getInstallationProgress (some "nope") allOk demoComposeRepo none).1
        = [SSEEvent.connected, SSEEvent.errorEv (errMessage (Err.unknownSolution "nope"))] :=
  ⟨(progressStream_amended (some "") allOk demoComposeRepo none).1 rfl,
   (progressStream_amended (some "ai-doc-editor") allOk demoComposeRepo (some "A=1")).2.1
      "3002" _ (by decide) rfl,
   (progressStream_amended (some "nope") allOk demoComposeRepo none).2.2
      (Err.unknownSolution "nope") _ (by decide) rfl⟩

/-- Counterexample to claim C2: with the real ai-doc-editor entry, a
repository carrying both a compose descriptor and a Dockerfile, the
composition tool unavailable and its one-time installation failing, the
operation does not fall back to the single-container path (no build is
attempted) and does not fail with the no-deployment-descriptor error:
it proceeds with the compose command, whose failure terminates the
attempt. -/
theorem composeToolFallback_counterexample :
    (installDockerComposeService noComposeTool aiDocEditorConfig demoComposeRepo demoSt).1
        = Except.error (Err.cmdFailed Step.composeUp)
    ∧ (detectRepoStructure (repoNames demoComposeRepo)).hasDockerfile = true
    ∧ noComposeTool.composeV1Ok = false
    ∧ noComposeTool.composeV2Ok = false
    ∧ noComposeTool.toolInstallOk = false
    ∧ Step.build ∉
        (installDockerComposeService noComposeTool aiDocEditorConfig demoComposeRepo demoSt).2.trace :=
  ⟨rfl, rfl, rfl, rfl, rfl, by decide⟩

/-- Claim C2 (amended): the branch of a composed install is chosen by
repository structure alone.  With a compose descriptor present, the
compose path is always taken: an unavailable tool is installed once,
a failed installation is ignored, and the compose command still runs,
its failure surfacing as a compose-command failure rather than a
fallback.  Without a compose descriptor, a Dockerfile sends the attempt
down the single-container path — which then completes and reaches
success even when no composition tool works — and the attempt fails
with the no-deployment-descriptor error when neither file exists. -/
theorem composeToolFallback_amended (sid : String) (e : Exec) (cfg : Config)
    (repo : Repo) (s : St) :
    ((detectRepoStructure (repoNames repo)).hasDockerCompose = true → cfg.envFile ≠ "" →
      e.copyTemplateOk = true → e.copyTempOk = true →
      e.composeV1Ok = false → e.composeV2Ok = false → e.toolInstallOk = false →
      e.composeUpOk = false → s.trace = [] →
      (installDockerComposeService e cfg repo s).1 = Except.error (Err.cmdFailed Step.composeUp)
      ∧ Step.installComposeTool false ∈ (installDockerComposeService e cfg repo s).2.trace
      ∧ Step.composeUp ∈ (installDockerComposeService e cfg repo s).2.trace
      ∧ Step.build ∉ (installDockerComposeService e cfg repo s).2.trace)
    ∧ (sid ≠ "" → lookupConfig sid = some cfg → cfg.installType = "docker-compose" →
       cfg.envFile ≠ "" →
       (detectRepoStructure (repoNames repo)).hasDockerCompose = false →
       (detectRepoStructure (repoNames repo)).hasDockerfile = true →
       e.rmRepoOk = true → e.cloneOk = true → e.copyTemplateOk = true →
       e.copyTempOk = true → e.buildOk = true → e.runOk = true → e.rmTempOk = true →
       s.trace = [] →
       (installWithProgress sid e repo s).1 = Except.ok cfg.port
       ∧ Step.build ∈ (installWithProgress sid e repo s).2.trace
       ∧ Step.composeUp ∉ (installWithProgress sid e repo s).2.trace)
    ∧ ((detectRepoStructure (repoNames repo)).hasDockerCompose = false →
       (detectRepoStructure (repoNames repo)).hasDockerfile = false → cfg.envFile ≠ "" →
       e.copyTemplateOk = true →
       (installDockerComposeService e cfg repo s).1 = Except.error Err.noDockerConfig) := by
  refine ⟨?_, ?_, ?_⟩
  · intro hc henv hct hcp hv1 hv2 hti hcu htr
    simp [installDockerComposeService, installDockerService, runCmd, andThen, tr,
          mergeEnvOp, ensureComposeTool, applyFindCopy, applyMerge, applyCopyTemp,
          applyRmTemp, hc, henv, hct, hcp, hv1, hv2, hti, hcu, htr]
  · intro hs hcfg hit henv hnc hdf hrm hcl hct hcp hbu hru hrt htr
    rcases hap : cfg.additionalPorts with _ | ps <;>
      simp [installWithProgress, installDockerComposeService, installDockerService,
            cleanupExistingContainers, hs, hcfg, hit, henv, hnc, hdf, hrm, hcl, hct, hcp,
            hbu, hru, hrt, htr, hap, runCmd, andThen, tr, mergeEnvOp, ensureComposeTool,
            applyFindCopy, applyMerge, applyCopyTemp, applyRmTemp, applyClone]
  · intro hnc hdf henv hct
    simp [installDockerComposeService, runCmd, andThen, tr, mergeEnvOp,
          applyFindCopy, applyMerge, hnc, hdf, henv, hct]

/-- Witness for C2 (amended) covering the compose-descriptor branch with
a broken tool, the Dockerfile-only branch on the orchestrator reaching
success with a broken tool, and the no-descriptor branch. -/
theorem composeToolFallback_amended_witness :
    ((installDockerComposeService noComposeTool aiDocEditorConfig demoComposeRepo
          (initSt none)).1 = Except.error (Err.cmdFailed Step.composeUp)
     ∧ Step.installComposeTool false ∈
         (installDockerComposeService noComposeTool aiDocEditorConfig demoComposeRepo
            (initSt none)).2.trace
     ∧ Step.composeUp ∈
         (installDockerComposeService noComposeTool aiDocEditorConfig demoComposeRepo
            (initSt none)).2.trace
     ∧ Step.build ∉
         (installDockerComposeService noComposeTool aiDocEditorConfig demoComposeRepo
            (initSt none)).2.trace)
    ∧ ((installWithProgress "ai-doc-editor" noComposeTool demoDockerfileRepo (initSt none)).1
          = Except.ok aiDocEditorConfig.port
       ∧ Step.build ∈
           (installWithProgress "ai-doc-editor" noComposeTool demoDockerfileRepo
              (initSt none)).2.trace
       ∧ Step.composeUp ∉
           (installWithProgress "ai-doc-editor" noComposeTool demoDockerfileRepo
              (initSt none)).2.trace)
    ∧ (installDockerComposeService noComposeTool aiDocEditorConfig (Repo.mk [])
          (initSt none)).1 = Except.error Err.noDockerConfig :=
  ⟨(composeToolFallback_amended "x" noComposeTool aiDocEditorConfig demoComposeRepo
      (initSt none)).1 rfl (by decide) rfl rfl rfl rfl rfl rfl rfl,
   (composeToolFallback_amended "ai-doc-editor" noComposeTool aiDocEditorConfig
      demoDockerfileRepo (initSt none)).2.1 (by decide) rfl rfl (by decide) rfl rfl
      rfl rfl rfl rfl rfl rfl rfl rfl,
   (composeToolFallback_amended "x" noComposeTool aiDocEditorConfig (Repo.mk [])
      (initSt none)).2.2 rfl rfl (by decide) rfl⟩

/-- Claim C6: structure detection records the first existing name of the
fixed ordered compose descriptor list over the repository root, and a
Dockerfile check; under a catalog entry declaring a composed install, a
repository with a compose descriptor takes the compose path even when a
Dockerfile is also present, and a repository with only a Dockerfile
takes the single-container path. -/
theorem detectRepoStructure_paths (files : List String) (sid : String) (e : Exec)
    (cfg : Config) (repo : Repo) (s : St) :
    (detectRepoStructure files =
      { hasDockerCompose := (composeFileNames.find? (fun f => files.contains f)).isSome,
        hasDockerfile := files.contains "Dockerfile",
        composeFile := composeFileNames.find? (fun f => files.contains f) })
    ∧ (sid ≠ "" → lookupConfig sid = some cfg → cfg.installType = "docker-compose" →
       cfg.envFile ≠ "" →
       (detectRepoStructure (repoNames repo)).hasDockerCompose = true →
       e.rmRepoOk = true → e.cloneOk = true → e.copyTemplateOk = true →
       e.copyTempOk = true → e.composeUpOk = true → e.rmTempOk = true → s.trace = [] →
       (installWithProgress sid e repo s).1 = Except.ok cfg.port
       ∧ Step.composeUp ∈ (installWithProgress sid e repo s).2.trace
       ∧ Step.build ∉ (installWithProgress sid e repo s).2.trace)
    ∧ (sid ≠ "" → lookupConfig sid = some cfg → cfg.installType = "docker-compose" →
       cfg.envFile ≠ "" →
       (detectRepoStructure (repoNames repo)).hasDockerCompose = false →
       (detectRepoStructure (repoNames repo)).hasDockerfile = true →
       e.rmRepoOk = true → e.cloneOk = true → e.copyTemplateOk = true →
       e.copyTempOk = true → e.buildOk = true → e.runOk = true → e.rmTempOk = true →
       s.trace = [] →
       (installWithProgress sid e repo s).1 = Except.ok cfg.port
       ∧ Step.build ∈ (installWithProgress sid e repo s).2.trace
       ∧ Step.composeUp ∉ (installWithProgress sid e repo s).2.trace) := by
  refine ⟨?_, ?_, ?_⟩
  · unfold detectRepoStructure
    rw [findComposeFile_eq_find]
    cases composeFileNames.find? (fun f => files.contains f) <;> rfl
  · intro hs hcfg hit henv hc hrm hcl hct hcp hcu hrt htr
    rcases hap : cfg.additionalPorts with _ | ps <;>
      rcases hv1 : e.composeV1Ok <;>
      rcases hv2 : e.composeV2Ok <;>
      simp [installWithProgress, installDockerComposeService, installDockerService,
            cleanupExistingContainers, hs, hcfg, hit, henv, hc, hrm, hcl, hct, hcp,
            hcu, hrt, htr, hap, hv1, hv2, runCmd, andThen, tr, mergeEnvOp,
            ensureComposeTool, applyFindCopy, applyMerge, applyCopyTemp, applyRmTemp,
            applyClone]
  · intro hs hcfg hit henv hnc hdf hrm hcl hct hcp hbu hru hrt htr
    rcases hap : cfg.additionalPorts with _ | ps <;>
      simp [installWithProgress, installDockerComposeService, installDockerService,
            cleanupExistingContainers, hs, hcfg, hit, henv, hnc, hdf, hrm, hcl, hct, hcp,
            hbu, hru, hrt, htr, hap, runCmd, andThen, tr, mergeEnvOp, ensureComposeTool,
            applyFindCopy, applyMerge, applyCopyTemp, applyRmTemp, applyClone]

/-- Witness for C6 covering detection on a concrete root, the compose
path with a Dockerfile also present, and the single-container fallback. -/
theorem detectRepoStructure_paths_witness :
    (detectRepoStructure ["docker-compose.yml", "Dockerfile"] =
      { hasDockerCompose := true, hasDockerfile := true,
        composeFile := some "docker-compose.yml" })
    ∧ ((installWithProgress "ai-doc-editor" allOk demoComposeRepo (initSt none)).1
          = Except.ok aiDocEditorConfig.port
       ∧ Step.composeUp ∈
           (installWithProgress "ai-doc-editor" allOk demoComposeRepo (initSt none)).2.trace
       ∧ Step.build ∉
           (installWithProgress "ai-doc-editor" allOk demoComposeRepo (initSt none)).2.trace)
    ∧ ((installWithProgress "ai-doc-editor" allOk demoDockerfileRepo (initSt none)).1
          = Except.ok aiDocEditorConfig.port
       ∧ Step.build ∈
           (installWithProgress "ai-doc-editor" allOk demoDockerfileRepo (initSt none)).2.trace
       ∧ Step.composeUp ∉
           (installWithProgress "ai-doc-editor" allOk demoDockerfileRepo (initSt none)).2.trace) :=
  ⟨((detectRepoStructure_paths ["docker-compose.yml", "Dockerfile"] "x" allOk
      aiDocEditorConfig demoComposeRepo (initSt none)).1).trans (by decide),
   (detectRepoStructure_paths ["docker-compose.yml", "Dockerfile"] "ai-doc-editor" allOk
      aiDocEditorConfig demoComposeRepo (initSt none)).2.1 (by decide) rfl rfl (by decide)
      rfl rfl rfl rfl rfl rfl rfl rfl,
   (detectRepoStructure_paths ["docker-compose.yml", "Dockerfile"] "ai-doc-editor" allOk
      aiDocEditorConfig demoDockerfileRepo (initSt none)).2.2 (by decide) rfl rfl
      (by decide) rfl rfl rfl rfl rfl rfl rfl rfl rfl rfl⟩

/-- Claim C7: after a successful single-container install the
repository .env again equals the solution template (re-copied from the
template file) and the merge scratch file is gone; after a successful
composed install on a compose-descriptor repository the .env retains
the serialized merge of the root env file with the template, and only
the scratch copy is deleted. -/
theorem envFile_restoration (e : Exec) (cfg : Config) (repo : Repo) (s : St) (t : String)
    (henv : cfg.envFile ≠ "") (ht : repoGet repo cfg.envFile = some t) :
    ((installDockerService e cfg repo s).1 = Except.ok () →
      (installDockerService e cfg repo s).2.dotEnv = some t
      ∧ (installDockerService e cfg repo s).2.dotEnvTemp = none)
    ∧ ((detectRepoStructure (repoNames repo)).hasDockerCompose = true →
       (installDockerComposeService e cfg repo s).1 = Except.ok () →
       (installDockerComposeService e cfg repo s).2.dotEnv
           = some (mergeEnvironmentFiles s.rootEnv (some t)).2
       ∧ (installDockerComposeService e cfg repo s).2.dotEnvTemp = none) := by
  constructor
  · intro hok
    rcases hct : e.copyTemplateOk <;> rcases hcp : e.copyTempOk <;>
      rcases hbu : e.buildOk <;> rcases hru : e.runOk <;> rcases hrt : e.rmTempOk <;>
      simp_all [installDockerService, runCmd, andThen, tr, mergeEnvOp,
                applyFindCopy, applyMerge, applyCopyTemp, applyRmTemp, henv, ht]
  · intro hc hok
    rcases hct : e.copyTemplateOk <;> rcases hcp : e.copyTempOk <;>
      rcases hcu : e.composeUpOk <;> rcases hrt : e.rmTempOk <;>
      rcases hv1 : e.composeV1Ok <;> rcases hv2 : e.composeV2Ok <;>
      simp_all [installDockerComposeService, runCmd, andThen, tr, mergeEnvOp,
                ensureComposeTool, applyFindCopy, applyMerge, applyCopyTemp,
                applyRmTemp, henv, ht]

/-- Witness for C7 on the ai-doc-editor entry over a compose repository
shipping the template. -/
theorem envFile_restoration_witness :
    ((installDockerService allOk aiDocEditorConfig demoComposeRepo demoSt).2.dotEnv
        = some "K=1"
     ∧ (installDockerService allOk aiDocEditorConfig demoComposeRepo demoSt).2.dotEnvTemp
        = none)
    ∧ ((installDockerComposeService allOk aiDocEditorConfig demoComposeRepo demoSt).2.dotEnv
        = some (mergeEnvironmentFiles demoSt.rootEnv (some "K=1")).2
       ∧ (installDockerComposeService allOk aiDocEditorConfig demoComposeRepo
            demoSt).2.dotEnvTemp = none) :=
  ⟨(envFile_restoration allOk aiDocEditorConfig demoComposeRepo demoSt "K=1"
      (by decide) rfl).1 rfl,
   (envFile_restoration allOk aiDocEditorConfig demoComposeRepo demoSt "K=1"
      (by decide) rfl).2 rfl rfl⟩

/-- First-match search succeeds whenever some member satisfies the
predicate. -/
theorem find_exists_of_mem {α : Type} (p : α → Bool) :
    ∀ (l : List α) (x : α), x ∈ l → p x = true → ∃ y, l.find? p = some y ∧ p y = true := by
  intro l
  induction l with
  | nil => intro x hx; cases hx
  | cons a as ih =>
      intro x hx hpx
      cases ha : p a with
      | true => exact ⟨a, List.find?_cons_of_pos _ ha, ha⟩
      | false =>
          rcases List.mem_cons.mp hx with rfl | hx'
          · rw [ha] at hpx; cases hpx
          · obtain ⟨y, hy, hpy⟩ := ih x hx' hpx
            exact ⟨y, by rw [List.find?_cons_of_neg _ (by simp [ha])]; exact hy, hpy⟩

/-- Claim C10: the health check reports running whenever any Up
container line matches the name test, where the name test accepts names
containing the queried identifier or any of the fixed aliases foloup,
ai-doc, landing-page; consequently every non-empty query reports
running when an up foloup container exists, even when the queried
solution is a different one. -/
theorem checkInstallationHealth_alias_matching (sid psAux stdout line : String) :
    (sid ≠ "" → jsTrim psAux = "" → line ∈ containerLines stdout →
      lineMatches sid line = true →
      ∃ l, checkInstallationHealth sid psAux (some stdout) = HealthStatus.running l
           ∧ lineMatches sid l = true)
    ∧ (sid ≠ "" →
       checkInstallationHealth sid "" (some "foloup-container Up 2 minutes")
         = HealthStatus.running "foloup-container Up 2 minutes") := by
  constructor
  · intro hsid hps hmem hmatch
    obtain ⟨y, hy, hpy⟩ :=
      find_exists_of_mem (fun l => lineMatches sid l) (containerLines stdout) line hmem hmatch
    refine ⟨y, ?_, hpy⟩
    simp [checkInstallationHealth, hsid, hps, hy]
  · intro hsid
    have hm : lineMatches sid "foloup-container Up 2 minutes" = true := by
      have h1 : jsIncludes "foloup-container" "foloup" = true := by decide
      have hup : jsIncludes "Up" "Up" = true := by decide
      have hparts : (jsSplit ' ' "foloup-container Up 2 minutes").take 2
          = ["foloup-container", "Up"] := by decide
      simp [lineMatches, hparts, h1, hup]
    have hfind : (containerLines "foloup-container Up 2 minutes").find?
        (fun l => lineMatches sid l) = some "foloup-container Up 2 minutes" := by
      have hcl : containerLines "foloup-container Up 2 minutes"
          = ["foloup-container Up 2 minutes"] := by decide
      rw [hcl]
      exact List.find?_cons_of_pos _ hm
    have htrim : jsTrim "" = "" := rfl
    simp [checkInstallationHealth, hsid, htrim, hfind]

/-- Witness for C10: querying seo-content-gen reports running because a
foloup container is up. -/
theorem checkInstallationHealth_alias_matching_witness :
    (∃ l, checkInstallationHealth "seo-content-gen" ""
            (some "foloup-container Up 2 minutes") = HealthStatus.running l
          ∧ lineMatches "seo-content-gen" l = true)
    ∧ checkInstallationHealth "seo-content-gen" "" (some "foloup-container Up 2 minutes")
        = HealthStatus.running "foloup-container Up 2 minutes" :=
  ⟨(checkInstallationHealth_alias_matching "seo-content-gen" ""
      "foloup-container Up 2 minutes" "foloup-container Up 2 minutes").1
      (by decide) rfl (by decide) (by decide),
   (checkInstallationHealth_alias_matching "seo-content-gen" "" "x" "x").2 (by decide)⟩

end Weam
